import Mathlib

/-!
# Verification of the LLM Council Plus deliberation engine and UI state logic

Shallow embedding of the parts of the repository that the verified claims
concern: the `Stage2.jsx` rendering component (de-anonymization, tab
clamping, error display), the `Settings.jsx` council-roster handlers, the
`App.jsx` message-list send/abort/error handling, and — modelled from the
specification where the backend source is not in the repository snapshot —
the Stage Runner batching, the Anonymizer reversal, the Ranking Parser
fallback, the Aggregator, and the Orchestrator cancellation behaviour.

Strings that the code scans character by character are embedded as
`List Char` so that the scanning loops can be written as structural
recursion; `String.data` converts concrete literals.
-/

namespace LLMCouncil

/-! ## Stage2.jsx : ranking entries as received by the component

A ranking entry carries the fields `Stage2.jsx` reads: `model`, `error`
(truthy flag; the backend sends either no error or a message string),
`error_message`, `ranking` (raw text) and `parsed_ranking`.
-/

structure Stage2Entry where
  model : String
  error : Option String
  error_message : Option String
  ranking : Option String
  parsed_ranking : Option (List (List Char))
deriving Repr, DecidableEq

/-- JavaScript truthiness of an optional string field:
`undefined`/`null` and the empty string are falsy. -/
def strTruthy : Option String → Bool
  | none => false
  | some s => !(s = "")

/-- `Stage2.jsx`: `const hasError = currentRanking?.error || false`. -/
def hasError (r : Stage2Entry) : Bool := strTruthy r.error

/-- `Stage2.jsx` tab row: the tab button carries the `tab-error` class and
the `!` error badge exactly when `rank?.error` is truthy. -/
def tabShowsErrorBadge (r : Stage2Entry) : Bool := hasError r

/-- `Stage2.jsx` panel header: `Failed` status span when `hasError`, else
`Completed`. -/
def modelStatusText (r : Stage2Entry) : String :=
  if hasError r then "Failed" else "Completed"

/-- `Stage2.jsx` error panel: `currentRanking?.error_message || 'Unknown error'`,
rendered only when `hasError`. -/
def panelErrorMessage (r : Stage2Entry) : Option String :=
  if hasError r then
    some (match r.error_message with
          | some s => if s = "" then "Unknown error" else s
          | none => "Unknown error")
  else none

/-! ## Stage2.jsx : tab clamping (claim C10) -/

/-- `Stage2.jsx`: `const safeActiveTab = Math.min(activeTab, rankings.length - 1)`. -/
def safeActiveTab (activeTab : Nat) (numRankings : Nat) : Nat :=
  min activeTab (numRankings - 1)

/-- `Stage2.jsx`: `if (!rankings || rankings.length === 0) return null;`
`none` models both a missing (`null`/`undefined`) and this function being
handed no list; the component renders nothing in that case. -/
def stage2Renders : Option (List Stage2Entry) → Bool
  | none => false
  | some rs => !rs.isEmpty

/-- `Stage2.jsx`: `const currentRanking = rankings[safeActiveTab] || {}` —
the element the component actually reads. -/
def currentRanking (rankings : List Stage2Entry) (activeTab : Nat) :
    Option Stage2Entry :=
  rankings.get? (safeActiveTab activeTab rankings.length)

/-! ## Stage2.jsx : de-anonymization (claims C8, C5)

`deAnonymizeText` does `result.replace(new RegExp(label, 'g'), bold)` for
each `[label, model]` entry in turn. A global literal replace is modelled
by `listReplaceAll`: scan left to right, on a match consume the pattern,
emit the replacement, continue after it (matching `String.prototype.replace`
with a `g` regexp, including the empty-pattern behaviour). -/

def listReplaceAll (s p r : List Char) : List Char :=
  match s with
  | [] => if p.isEmpty then r else []
  | c :: rest =>
    if hp : p = [] then
      r ++ (c :: rest).flatMap (fun ch => ch :: r)
    else if p.isPrefixOf (c :: rest) then
      r ++ listReplaceAll ((c :: rest).drop p.length) p r
    else
      c :: listReplaceAll rest p r
termination_by s.length
decreasing_by
  · simp only [List.length_drop, List.length_cons]
    have : 0 < p.length := List.length_pos.mpr hp
    omega
  · simp

/-- `Stage2.jsx` `deAnonymizeText`: identity when no map is supplied
(`if (!labelToModel) return text` — both `null` and `undefined` are falsy,
modelled as `none`); otherwise fold the global replacements, in entry
order, of each label by `**<short model name>**`. `shortName` stands for
the imported `getShortModelName` helper. -/
def deAnonymizeText (shortName : String → String) (text : List Char)
    (labelToModel : Option (List (List Char × String))) : List Char :=
  match labelToModel with
  | none => text
  | some entries =>
    entries.foldl
      (fun result e =>
        listReplaceAll result e.1 ("**" ++ shortName e.2 ++ "**").data)
      text

/-- A pattern occurs somewhere in `s` (substring test used to state that
replacement touches only occurrences). -/
def containsSub (s p : List Char) : Bool :=
  match s with
  | [] => p.isEmpty
  | _ :: rest => p.isPrefixOf s || containsSub rest p

/-! ## Settings.jsx : council roster handlers (claim C2)

`councilModels` is the ordered list of member model-id strings. The add
button is rendered with
`disabled={getFilteredAvailableModels().length === 0 || councilModels.length >= 8}`
and each member row's remove button with
`disabled={councilModels.length <= 2}`, so the handlers below can only run
when those guards allow it; the step relation `CouncilStep` records
exactly the user operations reachable through the enabled buttons. -/

/-- `Settings.jsx` `handleAddCouncilMember`: append `filtered[0].id` when
the filtered model list is non-empty (the handler itself re-checks
`filtered.length > 0`). -/
def handleAddCouncilMember (filtered : List String) (members : List String) :
    List String :=
  match filtered with
  | [] => members
  | m :: _ => members ++ [m]

/-- `Settings.jsx` `handleRemoveCouncilMember`:
`prev.filter((_, i) => i !== index)`, i.e. drop the element at `index`. -/
def handleRemoveCouncilMember (index : Nat) (members : List String) :
    List String :=
  members.eraseIdx index

/-- `Settings.jsx` `handleCouncilModelChange`: `updated[index] = modelId`
(the select only exists for an in-range row index). -/
def handleCouncilModelChange (index : Nat) (modelId : String)
    (members : List String) : List String :=
  members.set index modelId

/-- Guard of the `+ Add Council Member` button (it is `disabled` when the
filtered list is empty or the roster already has 8 members). -/
def addMemberEnabled (filteredCount : Nat) (members : List String) : Bool :=
  decide (0 < filteredCount) && decide (members.length < 8)

/-- Guard of the per-row `×` remove button (it is `disabled` when the
roster has 2 or fewer members). -/
def removeMemberEnabled (members : List String) : Bool :=
  decide (2 < members.length)

/-- One roster-changing user operation reachable through the enabled
`Settings.jsx` controls. -/
inductive CouncilStep : List String → List String → Prop
  | add (filtered : List String) (members : List String)
      (henabled : addMemberEnabled filtered.length members = true) :
      CouncilStep members (handleAddCouncilMember filtered members)
  | remove (index : Nat) (members : List String)
      (henabled : removeMemberEnabled members = true) :
      CouncilStep members (handleRemoveCouncilMember index members)
  | change (index : Nat) (modelId : String) (members : List String) :
      CouncilStep members (handleCouncilModelChange index modelId members)

/-- `Settings.jsx` `handleImportCouncil` council effect:
`if (config.council_models) setCouncilModels(config.council_models)` — the
roster is overwritten by the imported list (any JavaScript array is
truthy), with no 2–8 bounds check. -/
def handleImportCouncilModels (council_models : Option (List String))
    (members : List String) : List String :=
  match council_models with
  | none => members
  | some imported => imported

/-- The roster-changing configuration operations including the
`Import Configuration` path. -/
inductive CouncilStepWithImport : List String → List String → Prop
  | ui (members members2 : List String) (h : CouncilStep members members2) :
      CouncilStepWithImport members members2
  | importConfig (council_models : Option (List String))
      (members : List String) :
      CouncilStepWithImport members
        (handleImportCouncilModels council_models members)

/-! ## App.jsx : message list on send / abort / error (claim C9) -/

/-- Per-stage loading flags of an assistant message. -/
structure LoadingFlags where
  search : Bool
  stage1 : Bool
  stage2 : Bool
  stage3 : Bool
deriving Repr, DecidableEq

/-- Stage timers of an assistant message (`Date.now()` values). -/
structure Timers where
  stage1Start : Option Nat
  stage1End : Option Nat
  stage2Start : Option Nat
  stage2End : Option Nat
  stage3Start : Option Nat
  stage3End : Option Nat
deriving Repr, DecidableEq

/-- A conversation message as `App.jsx` manipulates it; stage payloads,
metadata and progress are abstracted into `payload` since the send/abort/
error paths treat them opaquely. -/
structure Message where
  role : String
  content : String
  aborted : Bool
  loading : LoadingFlags
  timers : Timers
  payload : String
deriving Repr, DecidableEq

/-- The streaming event handlers all do
`messages[messages.length - 1] = f(lastMsg)`: update only the final
element of the list. -/
def updateLast (f : Message → Message) : List Message → List Message
  | [] => []
  | [m] => [f m]
  | m :: rest => m :: updateLast f rest

/-- `handleSendMessage` optimistic phase: append the user message, then
the partial assistant message. -/
def handleSendAppend (msgs : List Message) (userMsg assistantMsg : Message) :
    List Message :=
  msgs ++ [userMsg, assistantMsg]

/-- Non-abort error path: `prev.messages.slice(0, -2)` removes the two
optimistically appended messages. -/
def rollbackOnError (msgs : List Message) : List Message :=
  msgs.take (msgs.length - 2)

/-- Timer stop rule of the abort path:
`stage1Start && !stage1End ? now : stage1End` for each stage. -/
def stopTimer (start fin : Option Nat) (now : Nat) : Option Nat :=
  if start.isSome && !fin.isSome then some now else fin

/-- The abort path's transformation of the final assistant message:
`aborted: true`, all loading flags cleared, running timers stopped. -/
def abortTransform (now : Nat) (m : Message) : Message :=
  if m.role = "assistant" then
    { m with
      aborted := true
      loading := ⟨false, false, false, false⟩
      timers :=
        { m.timers with
          stage1End := stopTimer m.timers.stage1Start m.timers.stage1End now
          stage2End := stopTimer m.timers.stage2Start m.timers.stage2End now
          stage3End := stopTimer m.timers.stage3Start m.timers.stage3End now } }
  else m

/-- `AbortError` branch: `if (!prev || prev.messages.length < 2) return prev`,
then mark the final message aborted when it is the assistant one. -/
def markAborted (now : Nat) (msgs : List Message) : List Message :=
  if msgs.length < 2 then msgs else updateLast (abortTransform now) msgs

/-! ## Spec-modelled backend: Stage Runner and Orchestrator

The backend engine (`backend/council.py`) is not part of the repository
snapshot — only its documentation, its Electron/React consumers and the
spec describe it — so the definitions in this section are modelled from
the specification text, as their doc comments record. -/

/-- A Stage 1/3 per-model result: exactly one of `content`/`error` set. -/
structure StageResult where
  model : String
  content : Option String
  error : Option String
deriving Repr, DecidableEq

/-- A Stage 2 per-ranker result as the Aggregator consumes it. -/
structure RankingResult where
  model : String
  parsedOrder : Option (List Char)
deriving Repr, DecidableEq

/-- Modelled from the spec: the Stage Runner (not under `src/`) dispatches
one Provider Adapter call per target; an adapter failure is returned, not
thrown, and becomes that target's `StageResult.error` while every other
target's call proceeds from its own outcome alone. `outcome` gives each
target's adapter result. -/
def runStage (targets : List String) (outcome : String → Except String String) :
    List StageResult :=
  targets.map (fun t =>
    match outcome t with
    | .ok c => ⟨t, some c, none⟩
    | .error e => ⟨t, none, some e⟩)

/-- Modelled from the spec: the Orchestrator's deliberation state — either
running with calls still pending and the results produced so far, or a
terminal `Aborted`/`Completed` state carrying the produced results. -/
inductive DelibState where
  | running (pending : List String) (done : List StageResult)
      (doneRankings : List RankingResult)
  | abortedState (done : List StageResult) (doneRankings : List RankingResult)
  | completedState (done : List StageResult) (doneRankings : List RankingResult)
deriving Repr, DecidableEq

/-- Modelled from the spec: cancelling the deliberation's single
cancellation scope terminates the run with an `Aborted` outcome that keeps
every result already produced. -/
def cancelDelib : DelibState → DelibState
  | .running _pending done dr => .abortedState done dr
  | s => s

/-- Modelled from the spec: issuing the next provider call — only possible
while running with a pending target; terminal states issue no calls. -/
def issueNextCall (outcome : String → StageResult) :
    DelibState → Option DelibState
  | .running (t :: pending) done dr =>
      some (.running pending (done ++ [outcome t]) dr)
  | _ => none

/-- One scheduler step: issue the next call when possible, otherwise stay. -/
def stepOr (outcome : String → StageResult) (s : DelibState) : DelibState :=
  (issueNextCall outcome s).getD s

/-- Run `k` scheduler steps. -/
def runStage1Calls (outcome : String → StageResult) :
    Nat → DelibState → DelibState
  | 0, s => s
  | Nat.succ k, s => runStage1Calls outcome k (stepOr outcome s)

/-- Cancel a Stage 1 fan-out over `targets` after `k` calls completed. -/
def stage1CancelScenario (targets : List String)
    (outcome : String → StageResult) (k : Nat) : DelibState :=
  cancelDelib (runStage1Calls outcome k (.running targets [] []))

/-! ## Spec-modelled backend: bounded-concurrency batching (claim C3) -/

/-- Split a list into consecutive chunks of three. -/
def chunk3 : List α → List (List α)
  | [] => []
  | a :: rest => (a :: rest.take 2) :: chunk3 (rest.drop 2)
termination_by l => l.length
decreasing_by
  simp only [List.length_cons, List.length_drop]
  omega

/-- Modelled from the spec: the Stage Runner's call schedule (not under
`src/`) — with `targets.length >= 6` the calls are issued in batches of 3,
below that threshold all calls are issued at once as a single batch. -/
def batchSchedule (targets : List α) : List (List α) :=
  if targets.length ≥ 6 then chunk3 targets else [targets]

/-! ## Spec-modelled backend: Anonymizer (claim C5) -/

/-- Modelled from the spec: the Anonymizer's label alphabet `A, B, C, …`. -/
def labelAlphabet : List Char := ['A', 'B', 'C', 'D', 'E', 'F', 'G', 'H']

/-- Modelled from the spec: `assignLabels` (not under `src/`) pairs the
labels `A, B, C, …` with the successful models in the exact order given. -/
def assignLabels (successfulModels : List String) : List (Char × String) :=
  labelAlphabet.zip successfulModels

/-- Modelled from the spec: `reverseLabel(map, label)` (not under `src/`)
is a pure lookup; unknown labels return `null` (here `none`), never throw. -/
def reverseLabel (map : List (Char × String)) (label : Char) : Option String :=
  (map.find? (fun e => e.1 == label)).map (fun e => e.2)

/-- JavaScript object lookup `labelToModel[label]` as `Stage2.jsx` uses it
for parsed-ranking display (string keys). -/
def jsLookup (m : List (List Char × String)) (key : List Char) :
    Option String :=
  (m.find? (fun e => e.1 == key)).map (fun e => e.2)

/-- `Stage2.jsx` parsed-ranking list item:
`labelToModel && labelToModel[label] ? getShortModelName(labelToModel[label]) : label`
— an unknown (or absent-map, or empty-value) label renders as the label
text itself rather than failing. -/
def displayParsedLabel (shortName : String → String)
    (labelToModel : Option (List (List Char × String))) (label : List Char) :
    String :=
  match labelToModel with
  | none => String.mk label
  | some m =>
    match jsLookup m label with
    | some model => if model = "" then String.mk label else shortName model
    | none => String.mk label

/-! ## Spec-modelled backend: Ranking Parser (claim C7) -/

/-- Modelled from the spec: scan the entire text for all `Response <L>`
occurrences, in order, keeping the labels that are valid. -/
def scanResponseLabels (valid : List Char) : List Char → List Char
  | [] => []
  | c :: rest =>
    (if "Response ".data.isPrefixOf (c :: rest) then
       match (c :: rest).drop 9 with
       | l :: _ => if valid.contains l then [l] else []
       | [] => []
     else []) ++ scanResponseLabels valid rest

/-- Keep only the first appearance of each label. -/
def dedupFirst : List Char → List Char → List Char
  | [], _ => []
  | c :: rest, seen =>
    if seen.contains c then dedupFirst rest seen
    else c :: dedupFirst rest (c :: seen)

/-- Modelled from the spec: the fallback strategy — all `Response <L>`
occurrences over the whole text, in order of first appearance. -/
def fallbackParse (text : List Char) (valid : List Char) : List Char :=
  dedupFirst (scanResponseLabels valid text) []

/-- Modelled from the spec: the text after the first case-insensitive
occurrence of the literal ranking section header `FINAL RANKING:`;
`none` when the header is absent. -/
def headerTail : List Char → Option (List Char)
  | [] => none
  | c :: rest =>
    if "FINAL RANKING:".data.isPrefixOf ((c :: rest).map Char.toUpper) then
      some ((c :: rest).drop 14)
    else headerTail rest

/-- Modelled from the spec: primary strategy — each line after the header
is scanned for its first label token, `Response <L>` or bare `<L>`. -/
def lineFirstLabel (valid : List Char) : List Char → Option Char
  | [] => none
  | c :: rest =>
    if "Response ".data.isPrefixOf (c :: rest) then
      match (c :: rest).drop 9 with
      | l :: _ =>
        if valid.contains l then some l else lineFirstLabel valid rest
      | [] => lineFirstLabel valid rest
    else if valid.contains c then some c
    else lineFirstLabel valid rest

/-- Modelled from the spec: the Ranking Parser (not under `src/`) — the
primary header-based strategy, falling back to the whole-text scan when
the header is absent or yields no labels (malformed). -/
def parseRanking (text : List Char) (valid : List Char) : List Char :=
  match headerTail text with
  | none => fallbackParse text valid
  | some tailText =>
    let primary :=
      dedupFirst ((tailText.splitOn '\n').filterMap (lineFirstLabel valid)) []
    if primary.isEmpty then fallbackParse text valid else primary

/-- The parser found a ranking header (case-insensitive). -/
def hasRankingHeader (text : List Char) : Bool := (headerTail text).isSome

/-! ## Spec-modelled backend: Aggregator (claim C6) -/

/-- Modelled from the spec: the 1-indexed positions a label received
across all non-null parsed orders; a ranker that omitted the label
contributes no vote. -/
def labelPositions (label : Char) (rankings : List RankingResult) :
    List Nat :=
  rankings.filterMap (fun r =>
    match r.parsedOrder with
    | none => none
    | some ord =>
      if ord.contains label then some (ord.indexOf label + 1) else none)

/-- Aggregate entry before sorting, carrying the original council-member
index used as the tie-break. `averageRank` is exact rational arithmetic;
it is `0` (unused in comparisons) for zero-vote entries. -/
structure AggEntryI where
  memberIndex : Nat
  model : String
  averageRank : ℚ
  voteCount : Nat
deriving Repr, DecidableEq

/-- Sort key: zero-vote entries last, then ascending `averageRank`, then
original council-member order. -/
def aggKey (e : AggEntryI) : ℕ ×ₗ (ℚ ×ₗ ℕ) :=
  toLex ((if e.voteCount = 0 then 1 else 0 : ℕ),
    toLex (e.averageRank, e.memberIndex))

/-- The Aggregator's sort order. -/
def aggLE (a b : AggEntryI) : Prop := aggKey a ≤ aggKey b

instance : DecidableRel aggLE :=
  fun a b => inferInstanceAs (Decidable (aggKey a ≤ aggKey b))

instance : IsTotal AggEntryI aggLE :=
  ⟨fun a b => le_total (aggKey a) (aggKey b)⟩

instance : IsTrans AggEntryI aggLE :=
  ⟨fun _ _ _ hab hbc => le_trans hab hbc⟩

/-- The shape of a published aggregate-ranking entry. -/
structure AggregateEntry where
  model : String
  average_rank : ℚ
  vote_count : Nat
deriving Repr, DecidableEq

/-- Unsorted aggregate entries, one per labeled member in council order. -/
def aggregateRaw (rankings : List RankingResult)
    (labelToModel : List (Char × String)) : List AggEntryI :=
  labelToModel.enum.map (fun ie =>
    let ps := labelPositions ie.2.1 rankings
    { memberIndex := ie.1
      model := ie.2.2
      averageRank :=
        if ps.length = 0 then 0 else (ps.sum : ℚ) / (ps.length : ℚ)
      voteCount := ps.length })

/-- Modelled from the spec: `aggregate(rankings, labelToModel)` (not under
`src/`) — mean 1-indexed position and vote count per labeled member,
sorted ascending by average rank with zero-vote members last and ties
broken by original council-member order. Pure: no I/O, no mutation. -/
def aggregate (rankings : List RankingResult)
    (labelToModel : List (Char × String)) : List AggregateEntry :=
  (List.insertionSort aggLE (aggregateRaw rankings labelToModel)).map
    (fun e => ⟨e.model, e.averageRank, e.voteCount⟩)

/-! ## Concrete sample data used by witnesses -/

/-- A concrete ranking entry for witness instantiations. -/
def sampleEntry : Stage2Entry :=
  ⟨"openai:gpt-4o", none, none, some "text", none⟩

/-- A concrete failed ranking entry. -/
def sampleErrorEntry : Stage2Entry :=
  ⟨"groq:llama3-70b-8192", some "Timeout", some "Request timed out", none, none⟩

/-- Adapter outcome where `groq:llama3` times out and every other target
answers. -/
def outcomeWithFailure : String → Except String String :=
  fun t => if t = "groq:llama3" then .error "Timeout" else .ok "answer"

/-- Outcome identical to `outcomeWithFailure` away from the failing
model. -/
def outcomeAllOk : String → Except String String :=
  fun t => if t = "groq:llama3" then .ok "answer" else .ok "answer"

/-- A concrete pre-send user message. -/
def sampleUserMsg : Message :=
  ⟨"user", "hello council", false, ⟨false, false, false, false⟩,
    ⟨none, none, none, none, none, none⟩, ""⟩

/-- A concrete assistant placeholder message. -/
def sampleAssistantMsg : Message :=
  ⟨"assistant", "", false, ⟨false, false, false, false⟩,
    ⟨none, none, none, none, none, none⟩, ""⟩

/-- A concrete always-successful adapter outcome. -/
def sampleOutcome : String → StageResult := fun t => ⟨t, some "answer", none⟩

/-- Concrete Stage 2 outcome: two rankers, opposite orders. -/
def sampleRankings : List RankingResult :=
  [⟨"openai:gpt-4o", some ['A', 'B']⟩, ⟨"groq:llama3", some ['B', 'A']⟩]

/-- Concrete anonymization order: `A` was produced by the first member. -/
def sampleLabelMap : List (Char × String) :=
  [('A', "openai:gpt-4o"), ('B', "groq:llama3")]

/-- A nine-member roster as it appears in an imported configuration
file. -/
def nineMemberImport : List String :=
  ["m1", "m2", "m3", "m4", "m5", "m6", "m7", "m8", "m9"]

/-! ## Supporting lemmas -/

theorem listReplaceAll_of_not_contains (s p r : List Char) (hp : p ≠ [])
    (h : containsSub s p = false) : listReplaceAll s p r = s := by
  induction s with
  | nil => simp [listReplaceAll, List.isEmpty_iff, hp]
  | cons c rest ih =>
    simp only [containsSub, Bool.or_eq_false_iff] at h
    rw [listReplaceAll, dif_neg hp, h.1]
    simp [ih h.2]

theorem updateLast_append_singleton (f : Message → Message)
    (l : List Message) (x : Message) :
    updateLast f (l ++ [x]) = l ++ [f x] := by
  induction l with
  | nil => rfl
  | cons a rest ih =>
    cases rest with
    | nil => rfl
    | cons b rest2 => simpa [updateLast] using ih

theorem runStage1Calls_running (outcome : String → StageResult) :
    ∀ (k : Nat) (targets : List String) (done : List StageResult)
      (dr : List RankingResult), k ≤ targets.length →
      runStage1Calls outcome k (.running targets done dr) =
        .running (targets.drop k) (done ++ (targets.take k).map outcome) dr := by
  intro k
  induction k with
  | zero => intro targets done dr _; simp [runStage1Calls]
  | succ k ih =>
    intro targets done dr hk
    cases targets with
    | nil => simp at hk
    | cons t rest =>
      rw [runStage1Calls]
      have hstep : stepOr outcome (.running (t :: rest) done dr) =
          .running rest (done ++ [outcome t]) dr := by
        simp [stepOr, issueNextCall]
      rw [hstep, ih rest (done ++ [outcome t]) dr (by simpa using Nat.le_of_succ_le_succ hk)]
      simp [List.take_succ_cons, List.drop_succ_cons]

theorem chunk3_flatten (l : List α) : (chunk3 l).flatten = l := by
  induction l using chunk3.induct with
  | case1 => simp [chunk3]
  | case2 a rest ih => simp [chunk3, ih]

theorem chunk3_mem_length (l : List α) (b : List α) (hb : b ∈ chunk3 l) :
    b.length ≤ 3 ∧ b ≠ [] := by
  induction l using chunk3.induct with
  | case1 => simp [chunk3] at hb
  | case2 a rest ih =>
    rw [chunk3] at hb
    rcases List.mem_cons.mp hb with h | h
    · subst h
      constructor
      · simp only [List.length_cons]
        have := List.length_take_le 2 rest
        omega
      · simp
    · exact ih h

theorem chunk3_full_batches (l : List α) (b : List α)
    (hb : b ∈ (chunk3 l).dropLast) : b.length = 3 := by
  induction l using chunk3.induct with
  | case1 => simp [chunk3] at hb
  | case2 a rest ih =>
    rw [chunk3] at hb
    by_cases hrest : chunk3 (rest.drop 2) = []
    · rw [hrest] at hb
      simp at hb
    · rw [List.dropLast_cons_of_ne_nil hrest] at hb
      rcases List.mem_cons.mp hb with h | h
      · subst h
        have hlen : rest.drop 2 ≠ [] := by
          intro hcon
          rw [hcon] at hrest
          exact hrest (by rw [chunk3])
        have : 2 < rest.length := by
          by_contra hle
          exact hlen (List.drop_eq_nil_of_le (by omega))
        simp only [List.length_cons, List.length_take]
        omega
      · exact ih h

/-- What being `aggLE`-below means for the published fields: a voting
entry never follows a zero-vote entry, and among voting entries the
average ranks are non-decreasing. -/
theorem aggLE_published {a b : AggEntryI} (h : aggLE a b) :
    (a.voteCount = 0 → b.voteCount = 0) ∧
      (a.voteCount ≠ 0 → b.voteCount ≠ 0 → a.averageRank ≤ b.averageRank) := by
  unfold aggLE aggKey at h
  rw [Prod.Lex.le_iff] at h
  constructor
  · intro ha
    by_contra hb
    rw [if_pos ha, if_neg hb] at h
    rcases h with h | ⟨h1, _⟩
    · omega
    · omega
  · intro ha hb
    rw [if_neg ha, if_neg hb] at h
    rcases h with h | ⟨_, h2⟩
    · omega
    · rw [Prod.Lex.le_iff] at h2
      rcases h2 with h2 | ⟨h2a, _⟩
      · exact le_of_lt h2
      · exact le_of_eq h2a

/-! ## Claim theorems -/

/-- C10: Stage2 rendering is total over its rankings input — when
`rankings` is `null` or empty the component renders nothing, and otherwise
the tab index actually used is `min(activeTab, rankings.length - 1)`, so
for every `activeTab` value and every non-empty rankings list the accessed
element is in bounds and rendering never indexes outside the list. -/
theorem claim_C10_stage2_totality :
    stage2Renders none = false ∧
    stage2Renders (some []) = false ∧
    ∀ (rs : List Stage2Entry) (activeTab : Nat), rs ≠ [] →
      safeActiveTab activeTab rs.length < rs.length ∧
      (currentRanking rs activeTab).isSome = true := by
  refine ⟨rfl, rfl, ?_⟩
  intro rs activeTab hne
  have hlen : 0 < rs.length := List.length_pos.mpr hne
  have hlt : safeActiveTab activeTab rs.length < rs.length := by
    unfold safeActiveTab
    have := Nat.min_le_right activeTab (rs.length - 1)
    omega
  refine ⟨hlt, ?_⟩
  unfold currentRanking
  rcases List.get?_eq_get hlt with h
  rw [h]
  rfl

/-- Witness for C10 at a concrete one-element rankings list with an
out-of-range requested tab. -/
theorem claim_C10_stage2_totality_witness :
    safeActiveTab 5 ([sampleEntry] : List Stage2Entry).length <
      ([sampleEntry] : List Stage2Entry).length ∧
    (currentRanking [sampleEntry] 5).isSome = true :=
  claim_C10_stage2_totality.2.2 [sampleEntry] 5 (by decide)

/-- C8: `deAnonymizeText` is the identity when no map is supplied
(`null`/`undefined` are both falsy, i.e. `none`); it is deterministic
(equal inputs give equal outputs, and it cannot mutate its arguments in
this pure embedding); it leaves text containing no occurrence of the
label unchanged; and it replaces every occurrence of each label with the
bolded short model name, shown on a representative input. -/
theorem claim_C8_deAnonymizeText_pure :
    (∀ (shortName : String → String) (text : List Char),
        deAnonymizeText shortName text none = text) ∧
    (∀ (f g : String → String) (t u : List Char)
        (m n : Option (List (List Char × String))),
        f = g → t = u → m = n →
        deAnonymizeText f t m = deAnonymizeText g u n) ∧
    (∀ (f : String → String) (t label : List Char) (model : String),
        label ≠ [] → containsSub t label = false →
        deAnonymizeText f t (some [(label, model)]) = t) ∧
    deAnonymizeText (fun s => s)
        "Response A beats Response B; Response A.".data
        (some [("Response A".data, "gpt-4o"), ("Response B".data, "claude")]) =
      "**gpt-4o** beats **claude**; **gpt-4o**.".data := by
  refine ⟨fun _ _ => rfl, ?_, ?_, ?_⟩
  · intro f g t u m n hf ht hm
    subst hf; subst ht; subst hm; rfl
  · intro f t label model hlabel hfree
    unfold deAnonymizeText
    simp only [List.foldl_cons, List.foldl_nil]
    exact listReplaceAll_of_not_contains t label _ hlabel hfree
  · simp [deAnonymizeText, listReplaceAll]

/-- Witness for C8 on a concrete label-free text. -/
theorem claim_C8_deAnonymizeText_pure_witness :
    deAnonymizeText (fun s => s) "no labels here".data
      (some [(['Q'], "some-model")]) = "no labels here".data :=
  claim_C8_deAnonymizeText_pure.2.2.1 (fun s => s) "no labels here".data
    ['Q'] "some-model" (by decide) (by decide)

/-- C5: reversing an anonymization label is a pure lookup — for every
map, a label carried by the map resolves to its assigned model, an
unknown label yields `none` (never a failure, the function is total), and
the `Stage2.jsx` display layer renders an unknown label as the label text
itself rather than failing. -/
theorem claim_C5_reverseLabel_lookup :
    (∀ (map : List (Char × String)) (label : Char),
        (∀ e ∈ map, e.1 ≠ label) → reverseLabel map label = none) ∧
    (∀ (map : List (Char × String)) (label : Char) (model : String),
        (label, model) ∈ map → (map.map Prod.fst).Nodup →
        reverseLabel map label = some model) ∧
    (∀ (shortName : String → String) (m : List (List Char × String))
        (label : List Char), jsLookup m label = none →
        displayParsedLabel shortName (some m) label = String.mk label) ∧
    (∀ (shortName : String → String) (label : List Char),
        displayParsedLabel shortName none label = String.mk label) := by
  refine ⟨?_, ?_, ?_, fun _ _ => rfl⟩
  · intro map label h
    unfold reverseLabel
    rw [List.find?_eq_none.mpr]
    · rfl
    · intro e he
      simpa using h e he
  · intro map label model hmem hnodup
    induction map with
    | nil => simp at hmem
    | cons hd tl ih =>
      unfold reverseLabel
      rcases List.mem_cons.mp hmem with heq | htl
      · subst heq
        simp [List.find?]
      · have hnd : hd.1 ∉ tl.map Prod.fst ∧ (tl.map Prod.fst).Nodup := by
          rw [List.map_cons] at hnodup
          exact List.nodup_cons.mp hnodup
        have hhd : hd.1 ≠ label := by
          intro hcon
          exact hnd.1 (hcon ▸ List.mem_map.mpr ⟨(label, model), htl, rfl⟩)
        rw [List.find?]
        have hbeq : (hd.1 == label) = false := by simpa using hhd
        rw [hbeq]
        exact ih htl hnd.2
  · intro shortName m label h
    simp [displayParsedLabel, h]

/-- Witness for C5 at a concrete two-entry map: known label resolved,
unknown label rendered as itself. -/
theorem claim_C5_reverseLabel_lookup_witness :
    reverseLabel [('A', "openai:gpt-4o"), ('B', "groq:llama3")] 'B' =
      some "groq:llama3" ∧
    displayParsedLabel (fun s => s)
      (some [("A".data, "openai:gpt-4o")]) "Z".data = String.mk "Z".data :=
  ⟨claim_C5_reverseLabel_lookup.2.1 [('A', "openai:gpt-4o"), ('B', "groq:llama3")]
      'B' "groq:llama3" (by decide) (by decide),
    claim_C5_reverseLabel_lookup.2.2.1 (fun s => s)
      [("A".data, "openai:gpt-4o")] "Z".data (by decide)⟩

/-- C4: a single per-model provider failure is contained — changing the
adapter outcome of one target never changes any other target's result in
the same stage fan-out (every target still yields its own `StageResult`),
and the `Stage2.jsx` rendering shows every entry with its error field set
as Failed with its error message, not silently hidden. -/
theorem claim_C4_failure_containment :
    (∀ (targets : List String) (o1 o2 : String → Except String String)
        (t0 : String), (∀ t, t ≠ t0 → o1 t = o2 t) →
        (runStage targets o1).length = targets.length ∧
        ∀ i : Nat, targets.get? i ≠ some t0 →
          (runStage targets o1).get? i = (runStage targets o2).get? i) ∧
    (∀ (r : Stage2Entry) (msg emsg : String),
        r.error = some msg → msg ≠ "" →
        tabShowsErrorBadge r = true ∧
        modelStatusText r = "Failed" ∧
        (r.error_message = some emsg → emsg ≠ "" →
          panelErrorMessage r = some emsg)) := by
  constructor
  · intro targets o1 o2 t0 hagree
    constructor
    · simp [runStage]
    · intro i hi
      unfold runStage
      rw [List.get?_map, List.get?_map]
      cases ht : targets.get? i with
      | none => rfl
      | some t =>
        rw [ht] at hi
        have : t ≠ t0 := fun hcon => hi (by rw [hcon])
        simp [hagree t this]
  · intro r msg emsg herr hmsg
    have htruthy : hasError r = true := by
      simp [hasError, strTruthy, herr, hmsg]
    refine ⟨htruthy, ?_, ?_⟩
    · simp [modelStatusText, htruthy]
    · intro hemsg hne
      simp [panelErrorMessage, htruthy, hemsg, hne]

/-- Witness for C4: the first slot's result is untouched by the second
model's failure, and a concrete failed entry renders as Failed with its
message. -/
theorem claim_C4_failure_containment_witness :
    (runStage ["openai:gpt-4o", "groq:llama3"] outcomeWithFailure).get? 0 =
      (runStage ["openai:gpt-4o", "groq:llama3"] outcomeAllOk).get? 0 ∧
    tabShowsErrorBadge sampleErrorEntry = true ∧
    modelStatusText sampleErrorEntry = "Failed" ∧
    panelErrorMessage sampleErrorEntry = some "Request timed out" := by
  have h1 := (claim_C4_failure_containment.1 ["openai:gpt-4o", "groq:llama3"]
    outcomeWithFailure outcomeAllOk "groq:llama3"
    (by
      intro t ht
      simp [outcomeWithFailure, outcomeAllOk, ht])).2 0 (by decide)
  have h2 := claim_C4_failure_containment.2 sampleErrorEntry "Timeout"
    "Request timed out" (by decide) (by decide)
  exact ⟨h1, h2.1, h2.2.1, h2.2.2 (by decide) (by decide)⟩

/-- C2 (amended): the in-UI roster-editing operations keep the council
between 2 and 8 members — the remove button is disabled at 2 members and
the add button at 8, and changing a member's model keeps the roster
length — so a roster satisfying `2 ≤ members ≤ 8` still satisfies it
after any enabled add/remove/change operation. (The original claim's
"every reachable configuration state satisfies 2 ≤ members ≤ 8" fails
because the configuration-import operation overwrites the roster with the
imported list unchecked; see the counterexample.) -/
theorem claim_C2_council_bounds (ms ms' : List String)
    (hlo : 2 ≤ ms.length) (hhi : ms.length ≤ 8)
    (hstep : CouncilStep ms ms') :
    2 ≤ ms'.length ∧ ms'.length ≤ 8 := by
  cases hstep with
  | add filtered members hen =>
    unfold addMemberEnabled at hen
    rw [Bool.and_eq_true, decide_eq_true_iff, decide_eq_true_iff] at hen
    cases filtered with
    | nil => simp at hen
    | cons m rest =>
      unfold handleAddCouncilMember
      simp only [List.length_append, List.length_cons, List.length_nil]
      omega
  | remove index members hen =>
    unfold removeMemberEnabled at hen
    rw [decide_eq_true_iff] at hen
    unfold handleRemoveCouncilMember
    rw [List.length_eraseIdx ms index]
    split_ifs <;> omega
  | change index modelId members =>
    unfold handleCouncilModelChange
    rw [List.length_set]
    exact ⟨hlo, hhi⟩

/-- Witness for C2: adding a third member to a two-member roster stays in
bounds. -/
theorem claim_C2_council_bounds_witness :
    2 ≤ (handleAddCouncilMember ["openrouter:new"]
          ["openai:gpt-4o", "groq:llama3"]).length ∧
    (handleAddCouncilMember ["openrouter:new"]
          ["openai:gpt-4o", "groq:llama3"]).length ≤ 8 :=
  claim_C2_council_bounds ["openai:gpt-4o", "groq:llama3"] _
    (by decide) (by decide)
    (CouncilStep.add ["openrouter:new"] ["openai:gpt-4o", "groq:llama3"]
      (by decide))

/-- Counterexample to C2 as stated: `Settings.jsx`'s
`handleImportCouncil` is a configuration operation
(`if (config.council_models) setCouncilModels(config.council_models)`)
that grows a valid 2-member council to 9 members in one step, so not
every reachable configuration state satisfies `members ≤ 8`. -/
theorem claim_C2_council_bounds_counterexample :
    CouncilStepWithImport ["openai:gpt-4o", "groq:llama3"]
      (handleImportCouncilModels (some nineMemberImport)
        ["openai:gpt-4o", "groq:llama3"]) ∧
    ¬ (handleImportCouncilModels (some nineMemberImport)
        ["openai:gpt-4o", "groq:llama3"]).length ≤ 8 :=
  ⟨CouncilStepWithImport.importConfig (some nineMemberImport)
      ["openai:gpt-4o", "groq:llama3"],
    by decide⟩

/-- C9: sending a message is atomic on failure — after the optimistic
append of the user message and the assistant placeholder, and any event
updates to that placeholder, the non-abort error path restores exactly
the pre-send message list, while the abort path keeps both messages and
only marks the assistant message aborted with all loading flags
cleared. -/
theorem claim_C9_send_atomicity :
    (∀ (pre : List Message) (u a : Message) (f : Message → Message),
        rollbackOnError (updateLast f (handleSendAppend pre u a)) = pre) ∧
    (∀ (pre : List Message) (u a : Message) (f : Message → Message)
        (now : Nat),
        markAborted now (updateLast f (handleSendAppend pre u a)) =
          pre ++ [u, abortTransform now (f a)]) ∧
    (∀ (m : Message) (now : Nat), m.role = "assistant" →
        (abortTransform now m).aborted = true ∧
        (abortTransform now m).loading = ⟨false, false, false, false⟩ ∧
        (abortTransform now m).role = m.role ∧
        (abortTransform now m).content = m.content) := by
  have hupd : ∀ (pre : List Message) (u a : Message) (f : Message → Message),
      updateLast f (handleSendAppend pre u a) = (pre ++ [u]) ++ [f a] := by
    intro pre u a f
    unfold handleSendAppend
    have : pre ++ [u, a] = (pre ++ [u]) ++ [a] := by simp
    rw [this, updateLast_append_singleton]
  refine ⟨?_, ?_, ?_⟩
  · intro pre u a f
    rw [hupd]
    unfold rollbackOnError
    have hlen : ((pre ++ [u]) ++ [f a]).length = pre.length + 2 := by simp
    rw [hlen]
    have h2 : pre.length + 2 - 2 = pre.length := by omega
    rw [h2, List.append_assoc]
    exact List.take_left pre ([u] ++ [f a])
  · intro pre u a f now
    rw [hupd]
    unfold markAborted
    have hlen : ¬ ((pre ++ [u]) ++ [f a]).length < 2 := by simp
    rw [if_neg hlen, updateLast_append_singleton]
    simp
  · intro m now hrole
    unfold abortTransform
    rw [if_pos hrole]
    exact ⟨rfl, rfl, rfl, rfl⟩

/-- Witness for C9: the abort-field facts at a concrete assistant
message. -/
theorem claim_C9_send_atomicity_witness :
    (abortTransform 7 sampleAssistantMsg).aborted = true ∧
    (abortTransform 7 sampleAssistantMsg).loading =
      ⟨false, false, false, false⟩ ∧
    (abortTransform 7 sampleAssistantMsg).role = sampleAssistantMsg.role ∧
    (abortTransform 7 sampleAssistantMsg).content =
      sampleAssistantMsg.content :=
  claim_C9_send_atomicity.2.2 sampleAssistantMsg 7 (by decide)

/-- C1: cancelling a deliberation after `k` of `N` Stage 1 calls have
completed terminates the run in an `Aborted` outcome carrying exactly the
`k` results already produced (and any ranking results already produced —
`cancelDelib` keeps both lists untouched), and no further provider call
can be issued from the aborted state. -/
theorem claim_C1_cancellation_keeps_partial_results (targets : List String)
    (outcome : String → StageResult) (k : Nat) (hk : k ≤ targets.length) :
    stage1CancelScenario targets outcome k =
      .abortedState ((targets.take k).map outcome) [] ∧
    ((targets.take k).map outcome).length = k ∧
    (∀ o2 : String → StageResult,
        issueNextCall o2 (.abortedState ((targets.take k).map outcome) []) =
          none) ∧
    (∀ (pending : List String) (done : List StageResult)
        (dr : List RankingResult),
        cancelDelib (.running pending done dr) = .abortedState done dr) := by
  refine ⟨?_, ?_, fun o2 => rfl, fun pending done dr => rfl⟩
  · unfold stage1CancelScenario
    rw [runStage1Calls_running outcome k targets [] [] hk]
    simp [cancelDelib]
  · rw [List.length_map, List.length_take]
    omega

/-- Witness for C1: cancelling after 2 of 3 calls keeps exactly those two
results and the aborted state issues no further call. -/
theorem claim_C1_cancellation_keeps_partial_results_witness :
    stage1CancelScenario ["m1", "m2", "m3"] sampleOutcome 2 =
      .abortedState ((["m1", "m2", "m3"].take 2).map sampleOutcome) [] ∧
    ((["m1", "m2", "m3"].take 2).map sampleOutcome).length = 2 :=
  ⟨(claim_C1_cancellation_keeps_partial_results ["m1", "m2", "m3"] sampleOutcome 2
      (by decide)).1,
    (claim_C1_cancellation_keeps_partial_results ["m1", "m2", "m3"] sampleOutcome 2
      (by decide)).2.1⟩

/-- C3: the stage fan-out schedule issues calls in batches of 3 when
there are at least 6 targets — every batch holds at most 3 targets, all
but possibly the last hold exactly 3, and together they cover the targets
in order — while below 6 targets all calls are issued immediately as one
batch. -/
theorem claim_C3_batching :
    (∀ (targets : List String), targets.length < 6 →
        batchSchedule targets = [targets]) ∧
    (∀ (targets : List String), 6 ≤ targets.length →
        (batchSchedule targets).flatten = targets ∧
        (∀ b ∈ batchSchedule targets, b.length ≤ 3 ∧ b ≠ []) ∧
        (∀ b ∈ (batchSchedule targets).dropLast, b.length = 3)) := by
  constructor
  · intro targets h
    unfold batchSchedule
    rw [if_neg (by omega)]
  · intro targets h
    unfold batchSchedule
    rw [if_pos h]
    exact ⟨chunk3_flatten targets,
      fun b hb => chunk3_mem_length targets b hb,
      fun b hb => chunk3_full_batches targets b hb⟩

/-- Witness for C3 at a 7-member and a 3-member fan-out. -/
theorem claim_C3_batching_witness :
    batchSchedule ["m1", "m2", "m3"] = [["m1", "m2", "m3"]] ∧
    (batchSchedule ["m1", "m2", "m3", "m4", "m5", "m6", "m7"]).flatten =
      ["m1", "m2", "m3", "m4", "m5", "m6", "m7"] :=
  ⟨claim_C3_batching.1 ["m1", "m2", "m3"] (by decide),
    (claim_C3_batching.2 ["m1", "m2", "m3", "m4", "m5", "m6", "m7"]
      (by decide)).1⟩

/-- C7: when the ranking-section header is absent — or malformed, i.e.
its numbered list yields no labels — the parser's fallback scans the
entire text for `Response <L>` occurrences in order of first appearance
and returns that sequence; in particular a text without a
`FINAL RANKING:` header containing `Response B` then `Response A` parses
to `[B, A]`. -/
theorem claim_C7_fallback_parsing :
    (∀ (text valid : List Char), hasRankingHeader text = false →
        parseRanking text valid =
          dedupFirst (scanResponseLabels valid text) []) ∧
    (∀ (text valid tailText : List Char), headerTail text = some tailText →
        (dedupFirst ((tailText.splitOn '\n').filterMap (lineFirstLabel valid))
          []).isEmpty = true →
        parseRanking text valid =
          dedupFirst (scanResponseLabels valid text) []) ∧
    parseRanking "I liked Response B most; Response A was terse.".data
        ['A', 'B'] = ['B', 'A'] := by
  refine ⟨?_, ?_, by decide⟩
  · intro text valid h
    unfold hasRankingHeader at h
    unfold parseRanking fallbackParse
    cases hh : headerTail text with
    | none => rfl
    | some t =>
      rw [hh] at h
      simp at h
  · intro text valid tailText hh hprim
    unfold parseRanking fallbackParse
    rw [hh]
    simp only [hprim, if_true]

/-- Witness for C7: the general fallback equation at the concrete
headerless text. -/
theorem claim_C7_fallback_parsing_witness :
    parseRanking "see Response A then Response B".data ['A', 'B'] =
      dedupFirst
        (scanResponseLabels ['A', 'B'] "see Response A then Response B".data)
        [] :=
  claim_C7_fallback_parsing.1 "see Response A then Response B".data
    ['A', 'B'] (by decide)

/-- C6: `aggregate` is deterministic (equal inputs give identical output
in this pure embedding), its internal sort is sorted by the full key —
ascending average rank, zero-vote entries last, ties broken by original
council-member order — and the published list is pairwise ordered so
that the first element has minimal `average_rank` among voting entries
(zero-vote entries can only follow). -/
theorem claim_C6_aggregate_sorted :
    (∀ (r1 r2 : List RankingResult) (m1 m2 : List (Char × String)),
        r1 = r2 → m1 = m2 → aggregate r1 m1 = aggregate r2 m2) ∧
    (∀ (rankings : List RankingResult) (labelToModel : List (Char × String)),
        List.Sorted aggLE
          (List.insertionSort aggLE (aggregateRaw rankings labelToModel))) ∧
    (∀ (rankings : List RankingResult) (labelToModel : List (Char × String)),
        (aggregate rankings labelToModel).Pairwise (fun x y =>
          (x.vote_count = 0 → y.vote_count = 0) ∧
          (x.vote_count ≠ 0 → y.vote_count ≠ 0 →
            x.average_rank ≤ y.average_rank))) ∧
    (∀ (rankings : List RankingResult) (labelToModel : List (Char × String))
        (top : AggregateEntry) (rest : List AggregateEntry),
        aggregate rankings labelToModel = top :: rest →
        ∀ e ∈ rest,
          (top.vote_count = 0 → e.vote_count = 0) ∧
          (top.vote_count ≠ 0 → e.vote_count ≠ 0 →
            top.average_rank ≤ e.average_rank)) := by
  have hsorted : ∀ (rankings : List RankingResult)
      (labelToModel : List (Char × String)),
      List.Sorted aggLE
        (List.insertionSort aggLE (aggregateRaw rankings labelToModel)) :=
    fun _ _ => List.sorted_insertionSort aggLE _
  have hpair : ∀ (rankings : List RankingResult)
      (labelToModel : List (Char × String)),
      (aggregate rankings labelToModel).Pairwise (fun x y =>
        (x.vote_count = 0 → y.vote_count = 0) ∧
        (x.vote_count ≠ 0 → y.vote_count ≠ 0 →
          x.average_rank ≤ y.average_rank)) := by
    intro rankings labelToModel
    unfold aggregate
    rw [List.pairwise_map]
    exact (hsorted rankings labelToModel).imp fun hab => aggLE_published hab
  refine ⟨?_, hsorted, hpair, ?_⟩
  · intro r1 r2 m1 m2 hr hm
    subst hr; subst hm; rfl
  · intro rankings labelToModel top rest hagg e he
    have := hpair rankings labelToModel
    rw [hagg] at this
    exact (List.pairwise_cons.mp this).1 e he

/-- Witness for C6: the determinism conjunct applied at the concrete
two-ranker inputs (equal-input hypotheses discharged by `rfl`). -/
theorem claim_C6_aggregate_sorted_witness :
    aggregate sampleRankings sampleLabelMap =
      aggregate sampleRankings sampleLabelMap :=
  claim_C6_aggregate_sorted.1 sampleRankings sampleRankings
    sampleLabelMap sampleLabelMap rfl rfl

end LLMCouncil
